import Mathlib

/-!
Shallow embedding of the `teacher` repository's core logic:
vocabulary extraction from documents (`src/read_docx/data_processing.py`,
`src/chinese/processing_docx.py`), marker-based dictionary scraping
(`src/chinese/scraping.py`, `src/chinese/scraping_chine_in.py`),
the resolve/checkpoint orchestrator (`src/chinese/processing_docx.py` `main`),
and the flashcard/definition processing (`src/chinese/processing_xml.py`).

Python strings are modelled as Lean `String` / `List Char`; Python `None`
outcomes as `Option`; exceptions as `Except`.
-/

/-- Models Python `str.isalnum` on the character classes this repository
processes: ASCII letters and digits, and CJK unified ideographs.
(Python's full Unicode-category semantics are wider; the claims here only
involve these ranges.) -/
def pyIsAlnum (c : Char) : Bool :=
  c.isAlpha || c.isDigit || (0x4E00 ≤ c.toNat && c.toNat ≤ 0x9FFF)

/-- Models Python whitespace (regex `\s` / `str.strip` classes) for the
ASCII range: space, tab, newline, carriage return, vertical tab, form feed. -/
def pyIsSpace (c : Char) : Bool :=
  c = ' ' || c = '\t' || c = '\n' || c = '\r' || c = '\x0b' || c = '\x0c'

/-- Models the regex word-character class `\w` for the ASCII range. -/
def isWordChar (c : Char) : Bool :=
  c.isAlphanum || c = '_'

/-- Index of the first occurrence of `pat` in `s`, scanning left to right;
models Python `str.find` (with `none` for `-1`). -/
def findSubFrom (pat : List Char) : List Char → Option Nat
  | [] => if pat = [] then some 0 else none
  | c :: rest =>
    if pat.isPrefixOf (c :: rest) then some 0
    else (findSubFrom pat rest).map (· + 1)

/-- Models Python's substring test `pat in s`. -/
def substrB (pat s : List Char) : Bool :=
  (findSubFrom pat s).isSome

/-- `"".join(e for e in word if e.isalnum())` from both `extract_vocab`
implementations. -/
def stripNonAlnum (w : String) : String :=
  ⟨w.data.filter pyIsAlnum⟩

/-- One vocabulary entry as built by `ProcessDocx.extract_vocab` in
`src/chinese/processing_docx.py`:
`{"character": word, "traduction": [""], "pronunciation": ""}`. -/
structure VocabEntry where
  character : String
  traduction : List String
  pronunciation : String
deriving DecidableEq

/-- `ProcessDocx.extract_vocab` from `src/chinese/processing_docx.py`.
The text is the list of space-split tokens; `list_characters` is the
set of already-known characters built by `main` from the loaded store
(it is never extended during extraction); `vocab` is the store, a list
of entries that new entries are appended to. -/
def ProcessDocx.extract_vocab (list_characters : List String) :
    List String → List VocabEntry → List VocabEntry
  | [], vocab => vocab
  | w :: rest, vocab =>
    let word := stripNonAlnum w
    ProcessDocx.extract_vocab list_characters rest
      (if word ∉ list_characters ∧ 0 < word.length ∧ word.length < 12
          ∧ substrB "2024".data word.data = false
       then vocab ++ [{ character := word, traduction := [""], pronunciation := "" }]
       else vocab)

/-- `extract_vocab` from `src/read_docx/data_processing.py`. The store is a
dict keyed by the stripped word (`vocab[word] = {}`); we model it as the
list of its keys in insertion order. -/
def ReadDocx.extract_vocab : List String → List String → List String
  | [], vocab => vocab
  | w :: rest, vocab =>
    let word := stripNonAlnum w
    ReadDocx.extract_vocab rest
      (if word ∉ vocab ∧ 0 < word.length ∧ word.length < 12
          ∧ substrB "2024".data word.data = false
       then vocab ++ [word]
       else vocab)

/-- First `'>'` in the list with no `'\n'` strictly before it (the shape a
non-greedy `<.*?>` regex match can take after an opening `'<'`). -/
def findTagClose : List Char → Option Nat
  | [] => none
  | c :: rest =>
    if c = '>' then some 0
    else if c = '\n' then none
    else (findTagClose rest).map (· + 1)

/-- Fuel-indexed worker for `removeTags`. Each step consumes at least one
character, so fuel equal to the input length suffices. -/
def removeTagsAux : Nat → List Char → List Char
  | 0, s => s
  | _ + 1, [] => []
  | fuel + 1, c :: rest =>
    if c = '<' then
      match findTagClose rest with
      | some k => removeTagsAux fuel (rest.drop (k + 1))
      | none => c :: removeTagsAux fuel rest
    else c :: removeTagsAux fuel rest

/-- Models `re.sub(r"<.*?>", "", s)` from `remove_html_tags` in
`src/chinese/scraping.py`: non-greedy removal of every span from a `'<'`
to the nearest following `'>'` (`.` does not cross a newline); a `'<'`
with no such close is kept literally. -/
def removeTags (s : List Char) : List Char :=
  removeTagsAux s.length s

/-- Fuel-indexed worker for `pySplit`; `acc` is the chunk read so far. -/
def pySplitAux (sep : List Char) : Nat → List Char → List Char → List (List Char)
  | 0, acc, s => [acc ++ s]
  | _ + 1, acc, [] => [acc]
  | fuel + 1, acc, c :: rest =>
    if sep.isPrefixOf (c :: rest) then
      acc :: pySplitAux sep fuel [] (rest.drop (sep.length - 1))
    else
      pySplitAux sep fuel (acc ++ [c]) rest

/-- Models Python `s.split(sep)` for a non-empty separator: split on every
non-overlapping occurrence, left to right, keeping empty chunks (including
a trailing empty chunk after a final separator). -/
def pySplit (sep s : List Char) : List (List Char) :=
  if sep = [] then [s] else pySplitAux sep s.length [] s

/-- `TraductionExtractor.extract_between_markers` /
`ChineInTranslator.extract_between_markers`: text strictly between the
first occurrence of `start_marker` and the first following occurrence of
`end_marker`; `none` when either is missing (Python returns `None`). -/
def extract_between_markers (result start_marker end_marker : String) : Option String :=
  match findSubFrom start_marker.data result.data with
  | none => none
  | some i =>
    let start_index := i + start_marker.length
    if end_marker = "" then some ⟨result.data.drop start_index⟩
    else
      match findSubFrom end_marker.data (result.data.drop start_index) with
      | none => none
      | some j => some ⟨(result.data.drop start_index).take j⟩

/-- Python falsiness of an optional string (`not traduction`): `None` and
the empty string are falsy. -/
def pyFalsyOpt : Option String → Bool
  | none => true
  | some s => s = ""

/-- `ChineInTranslator.get_traduction` / `TraductionExtractor.get_traduction`
from `src/chinese/scraping.py` and `src/chinese/scraping_chine_in.py`:
primary marker pair `"Entrées pour <word>"` / `"Entrées commençant par"`,
falling back (when the primary result is `None` or `""`) to
`"Traduction"` / `"Editer (projet CFDICT)"`. -/
def get_traduction (query raw : String) : Option String :=
  let traduction :=
    extract_between_markers raw ("Entrées pour " ++ query) "Entrées commençant par"
  if pyFalsyOpt traduction then
    extract_between_markers raw "Traduction" "Editer (projet CFDICT)"
  else traduction

/-- `ChineInTranslator.return_traduction` from `src/chinese/scraping.py`
(identical in `scraping_chine_in.py`). When `get_traduction` yields `None`,
the Python code reaches `remove_html_tags(None)` and raises `TypeError`
(iterating `None`); we model that crash as `none`. When the span contains
`"<li>"` it is split on `"</li>"` with the last chunk dropped and tags
stripped from each chunk; otherwise `remove_html_tags` iterates the SPAN
STRING character by character, producing one single-character string per
character of the span. -/
def return_traduction (query raw : String) : Option (List String) :=
  match get_traduction query raw with
  | none => none
  | some traduction =>
    if traduction ≠ "" ∧ substrB "<li>".data traduction.data = true then
      some (((pySplit "</li>".data traduction.data).dropLast).map
        (fun chunk => (⟨removeTags chunk⟩ : String)))
    else
      some (traduction.data.map (fun c => (⟨removeTags [c]⟩ : String)))

/-- A fault thrown by a lookup collaborator during resolution.
`isConn` distinguishes Python's `ConnectionError` class from any other
exception (the two `except` clauses of `main` in
`src/chinese/processing_docx.py`). -/
structure Fault where
  isConn : Bool
  text : String
deriving DecidableEq

/-- The error re-raised by the orchestrator after checkpointing: its
class (`ConnectionError` vs `RuntimeError`), message, and the chained
original fault (`raise ... from e`). -/
structure Raised where
  isConn : Bool
  msg : String
  cause : Fault
deriving DecidableEq

/-- The body of one iteration of the resolve loop in `main` of
`src/chinese/processing_docx.py`: when the entry's traduction is the
placeholder `[""]`, call the ChineIn extractor, falling back to the
Google extractor when it returns `[""]`; when the pronunciation is empty,
call `get_pinyin`. The lookup collaborators are passed as functions that
either return a value or fail. On failure the error carries the entry in
its current (possibly half-updated) state, mirroring the in-place mutation
of `all_vocab[index]`. -/
def resolveEntry (chineIn google : String → Except Fault (List String))
    (pinyinF : String → Except Fault String) (v : VocabEntry) :
    Except (Fault × VocabEntry) VocabEntry :=
  let step1 : Except (Fault × VocabEntry) VocabEntry :=
    if v.traduction = [""] then
      match chineIn v.character with
      | .error e => .error (e, v)
      | .ok traduction =>
        if traduction = [""] then
          match google v.character with
          | .error e => .error (e, v)
          | .ok traduction2 => .ok { v with traduction := traduction2 }
        else .ok { v with traduction := traduction }
    else .ok v
  match step1 with
  | .error p => .error p
  | .ok v1 =>
    if v1.pronunciation = "" then
      match pinyinF v1.character with
      | .error e => .error (e, v1)
      | .ok pr => .ok { v1 with pronunciation := pr }
    else .ok v1

/-- The resolve loop of `main` in `src/chinese/processing_docx.py` over the
whole store. On success, the fully updated store; on failure, the fault
together with the store's state at the moment of the failure (processed
prefix updated, failing entry as far as it got, suffix untouched) —
mirroring the in-place mutation of `all_vocab`. -/
def resolveAll (chineIn google : String → Except Fault (List String))
    (pinyinF : String → Except Fault String) :
    List VocabEntry → Except (Fault × List VocabEntry) (List VocabEntry)
  | [] => .ok []
  | v :: vs =>
    match resolveEntry chineIn google pinyinF v with
    | .error (e, v1) => .error (e, v1 :: vs)
    | .ok v1 =>
      match resolveAll chineIn google pinyinF vs with
      | .error (e, rest) => .error (e, v1 :: rest)
      | .ok rest => .ok (v1 :: rest)

/-- The primary persisted location of `main` in
`src/chinese/processing_docx.py`. -/
def processedPath : String := "data/processed/chinese_vocab.json"

/-- The checkpoint location of `main` in `src/chinese/processing_docx.py`. -/
def checkpointPath : String := "data/interim/chinese_vocab_checkpoint.json"

/-- The error constructed by the two `except` clauses of `main` in
`src/chinese/processing_docx.py`:
`ConnectionError("Failed to fetch data. Progress has been saved.") from e`
for a connection fault, otherwise
`RuntimeError("An error occurred. Progress has been saved.") from e`. -/
def wrapFault (e : Fault) : Raised :=
  if e.isConn then
    { isConn := true, msg := "Failed to fetch data. Progress has been saved.", cause := e }
  else
    { isConn := false, msg := "An error occurred. Progress has been saved.", cause := e }

/-- Outcome of the orchestrator run: either a normal save to the primary
location, or a checkpoint save plus a re-raised error. -/
inductive RunResult where
  | success (savedPath : String) (saved : List VocabEntry)
  | failed (savedPath : String) (saved : List VocabEntry) (err : Raised)
deriving DecidableEq

/-- The try/except structure of `main` in `src/chinese/processing_docx.py`
around the resolve loop: on success, `Save.save_json(all_vocab,
processed_path)`; on any exception, `Save.save_json(all_vocab,
checkpoint_path)` followed by re-raising a wrapped error chaining the
original one. -/
def mainResolve (chineIn google : String → Except Fault (List String))
    (pinyinF : String → Except Fault String) (vocab : List VocabEntry) : RunResult :=
  match resolveAll chineIn google pinyinF vocab with
  | .ok final => .success processedPath final
  | .error (e, saved) => .failed checkpointPath saved (wrapFault e)

/-- Lowercases a string; models Python `str.lower` for the ASCII range. -/
def lowerStr (s : String) : String :=
  ⟨s.data.map Char.toLower⟩

/-- One flashcard as built by `CardManager.load_cards_from_xml` in
`src/chinese/processing_xml.py`; optional fields are `none` when the
corresponding XML piece is absent (Python `None`). -/
structure Card where
  character : String
  pronunciation : String
  traduction : Option String
  category : Option String
  score : Option String
  difficulty : Option String
  correct : Option String
  incorrect : Option String
  reviewed : Option String
deriving DecidableEq

/-- The per-card keep test of `CardManager.remove_cards_by_categories`:
a card is skipped (removed) iff its category is truthy (set and non-empty)
and its lowercased category contains one of the (already lowercased)
keywords as a substring. -/
def keepCard (kws : List String) (card : Card) : Bool :=
  match card.category with
  | none => true
  | some cat =>
    if cat ≠ "" then
      !(kws.any (fun keyword => substrB keyword.data (lowerStr cat).data))
    else true

/-- `CardManager.remove_cards_by_categories` from
`src/chinese/processing_xml.py` (the `Union[List[str], str]` argument is
modelled as the list it is converted to by `_convert_to_list`): keywords
are lowercased, and every card whose truthy category contains one of them
is dropped; all other cards are kept in order. -/
def remove_cards_by_categories (cards : List Card) (keywords : List String) : List Card :=
  cards.filter (keepCard (keywords.map lowerStr))

/-- The ten part-of-speech labels of `DefinitionParser.parse_definition`. -/
def posLabels : List (List Char) :=
  ["adjective".data, "adverb".data, "affix".data, "auxiliary".data, "idiom".data,
   "noun".data, "preposition".data, "pronoun".data, "surname".data, "verb".data]

/-- Case-insensitive match of one of `posLabels` at the head of `s`, with
the regex's trailing `\b` boundary (the character after the label, if any,
must not be a word character). Alternatives are tried in the pattern's
order, as the regex alternation does. -/
def tryLabels (s : List Char) : Option (List Char) :=
  posLabels.find? (fun lab =>
    decide ((s.take lab.length).map Char.toLower = lab)
    && (match s.drop lab.length with
        | [] => true
        | d :: _ => !(isWordChar d)))

/-- Scanner for `re.finditer(pos_pattern, definition, re.IGNORECASE)`:
returns the `(start, lowercased label)` pairs in order. `boundaryOk`
records whether `\b` can hold before the current position (start of
string, or previous character not a word character); after a match the
scan resumes right after it. Fuel-indexed; each step consumes at least one
character. -/
def scanLabels : Nat → Bool → Nat → List Char → List (Nat × List Char)
  | 0, _, _, _ => []
  | _ + 1, _, _, [] => []
  | fuel + 1, boundaryOk, i, c :: rest =>
    match (if boundaryOk then tryLabels (c :: rest) else none) with
    | some lab =>
      (i, lab) :: scanLabels fuel false (i + lab.length) ((c :: rest).drop lab.length)
    | none => scanLabels fuel (!(isWordChar c)) (i + 1) rest

/-- Models Python `str.strip`: drop leading and trailing whitespace. -/
def pyStrip (s : List Char) : List Char :=
  ((s.dropWhile pyIsSpace).reverse.dropWhile pyIsSpace).reverse

/-- `re.sub(r"^\b" + re.escape(current_pos) + r"\b", "", text, IGNORECASE)`
from `parse_definition`: remove a leading case-insensitive occurrence of
the label when it is followed by a word boundary. (`\b` at position 0
holds whenever the first character is a word character, which is implied
by the label match itself, labels being alphabetic.) -/
def stripLeadingLabel (lab text : List Char) : List Char :=
  if decide ((text.take lab.length).map Char.toLower = lab)
      && (match text.drop lab.length with
          | [] => true
          | d :: _ => !(isWordChar d))
  then text.drop lab.length
  else text

/-- Length of the longest prefix of the list satisfying `p`. -/
def countWhile (p : Char → Bool) : List Char → Nat
  | [] => 0
  | c :: rest => if p c then countWhile p rest + 1 else 0

/-- Whether the zero-width lookahead `(?=\d+\s)` matches at offset `i` of
`text`: a digit run starts there and the character right after the
(maximal) run is whitespace. -/
def numQualifies (text : List Char) (i : Nat) : Bool :=
  let tl := text.drop i
  let r := countWhile Char.isDigit tl
  0 < r && (match tl.drop r with
            | [] => false
            | d :: _ => pyIsSpace d)

/-- All offsets at which `(?=\d+\s)` matches. `re.split` on a zero-width
pattern splits at every such offset (the scanner advances one character
after each empty match), so consecutive qualifying offsets all split. -/
def numSplitPositions (text : List Char) : List Nat :=
  (List.range text.length).filter (numQualifies text)

/-- Cut `text` at the given ascending offsets, keeping every piece
(including a leading empty piece when 0 is an offset), as `re.split` on a
zero-width pattern does. -/
def cutSegments (text : List Char) (ps : List Nat) : List (List Char) :=
  ((0 :: ps).zip (ps ++ [text.length])).map
    (fun ab => (text.drop ab.1).take (ab.2 - ab.1))

/-- Worker for `re.split(r"(?<=\.)\s+", def_text)`: split at every maximal
whitespace run immediately preceded by a period, consuming the run.
`prev` is the character before the current position; `acc` is the piece
read so far. Fuel-indexed; each step consumes at least one character. -/
def exampleSplitAux : Nat → Option Char → List Char → List Char → List (List Char)
  | 0, _, acc, s => [acc ++ s]
  | _ + 1, _, acc, [] => [acc]
  | fuel + 1, prev, acc, c :: rest =>
    if prev = some '.' && pyIsSpace c then
      let r := countWhile pyIsSpace (c :: rest)
      acc :: exampleSplitAux fuel (((c :: rest).take r).getLastD c) []
        ((c :: rest).drop r)
    else
      exampleSplitAux fuel (some c) (acc ++ [c]) rest

/-- Models `re.split(r"(?<=\.)\s+", def_text)` from `_split_definitions`. -/
def exampleSplit (s : List Char) : List (List Char) :=
  exampleSplitAux s.length none [] s

/-- One parsed sub-definition: the `{"definition": ..., "examples": ...}`
record built by `DefinitionParser._split_definitions`. -/
structure DefEntry where
  definition : List Char
  examples : List (List Char)
deriving DecidableEq

/-- `DefinitionParser._split_definitions` from
`src/chinese/processing_xml.py`: split the text before each numbered
sub-entry, skip empty fragments, strip a leading `^(\d+)\s` number, then
split the fragment on whitespace following a period — first piece is the
definition, the remaining pieces (stripped, empties dropped) the examples. -/
def split_definitions (text : List Char) : List DefEntry :=
  (cutSegments text (numSplitPositions text)).filterMap (fun seg =>
    let def_text := pyStrip seg
    if def_text = [] then none
    else
      let r := countWhile Char.isDigit def_text
      let def_text2 :=
        if numQualifies def_text 0 then pyStrip (def_text.drop r) else def_text
      let example_splits := exampleSplit def_text2
      some { definition := example_splits.headD []
             examples := example_splits.tail.filterMap (fun ex =>
               let e := pyStrip ex
               if e = [] then none else some e) })

/-- Insertion into a Python dict modelled as an association list:
overwriting an existing key keeps its position, a new key is appended. -/
def dictInsert (k : List Char) (v : List DefEntry) :
    List (List Char × List DefEntry) → List (List Char × List DefEntry)
  | [] => [(k, v)]
  | (k1, v1) :: rest =>
    if k1 = k then (k1, v) :: rest else (k1, v1) :: dictInsert k v rest

/-- Result of `DefinitionParser.parse_definition`: the original string when
no part-of-speech label occurs, else the insertion-ordered dict from label
to parsed sub-definitions. -/
inductive ParsedDefinition where
  | raw (s : List Char)
  | parsed (entries : List (List Char × List DefEntry))
deriving DecidableEq

/-- `DefinitionParser.parse_definition` from `src/chinese/processing_xml.py`:
find every case-insensitive whole-word part-of-speech label, partition the
string at the label starts (last partition ending at the string's end),
strip each partition, remove its leading label, strip again, split into
sub-definitions, and store under the lowercased label (later occurrences
of the same label overwrite earlier ones). -/
def parse_definition (definition : List Char) : ParsedDefinition :=
  let ms := scanLabels definition.length true 0 definition
  if ms = [] then .raw definition
  else
    let positions := ms.map Prod.fst ++ [definition.length]
    let parts := ms.map Prod.snd
    .parsed (((positions.zip positions.tail).zip parts).foldl
      (fun parsed_data se =>
        let text := pyStrip ((definition.drop se.1.1).take (se.1.2 - se.1.1))
        let text2 := pyStrip (stripLeadingLabel se.2 text)
        dictInsert se.2 (split_definitions text2) parsed_data)
      [])

/-- A list never equals itself with one more element appended. -/
theorem ne_append_singleton {α : Type} (l : List α) (a : α) : l ≠ l ++ [a] := by
  intro h
  have hlen := congrArg List.length h
  simp at hlen

/-- Claim C1 (amended): for every token and every store, the extractor
inserts the token as a new entry iff its alphanumeric-stripped form is not
in the membership structure (the preloaded character set for
`ProcessDocx.extract_vocab`; the store's keys for the dict-based
`extract_vocab`), its stripped length is strictly between 0 and 12, and
`"2024"` does not occur in the stripped form as a substring (not merely
"the token is not equal to 2024"). -/
theorem C1_keep_iff (t : String) (lc : List String) (store : List VocabEntry)
    (vocab : List String) :
    (ProcessDocx.extract_vocab lc [t] store =
        store ++ [{ character := stripNonAlnum t, traduction := [""], pronunciation := "" }]
      ↔ (stripNonAlnum t ∉ lc ∧ 0 < (stripNonAlnum t).length ∧ (stripNonAlnum t).length < 12
          ∧ substrB "2024".data (stripNonAlnum t).data = false))
    ∧ (ReadDocx.extract_vocab [t] vocab = vocab ++ [stripNonAlnum t]
      ↔ (stripNonAlnum t ∉ vocab ∧ 0 < (stripNonAlnum t).length ∧ (stripNonAlnum t).length < 12
          ∧ substrB "2024".data (stripNonAlnum t).data = false)) := by
  constructor
  · simp only [ProcessDocx.extract_vocab]
    by_cases h : stripNonAlnum t ∉ lc ∧ 0 < (stripNonAlnum t).length
        ∧ (stripNonAlnum t).length < 12 ∧ substrB "2024".data (stripNonAlnum t).data = false
    · simp [h]
    · simp only [if_neg h]
      constructor
      · intro hEq; exact absurd hEq (ne_append_singleton store _)
      · intro hc; exact absurd hc h
  · simp only [ReadDocx.extract_vocab]
    by_cases h : stripNonAlnum t ∉ vocab ∧ 0 < (stripNonAlnum t).length
        ∧ (stripNonAlnum t).length < 12 ∧ substrB "2024".data (stripNonAlnum t).data = false
    · simp [h]
    · simp only [if_neg h]
      constructor
      · intro hEq; exact absurd hEq (ne_append_singleton vocab _)
      · intro hc; exact absurd hc h

/-- Claim C1 counterexample: the token `"a2024b"` satisfies every condition
of the claim as stated against an empty store (its stripped form has
length 6, it differs from `"2024"`, and it is not present), yet neither
extractor keeps it — the code tests `"2024" not in word` (substring), not
`word != "2024"`. -/
theorem C1_counterexample :
    (("a2024b" : String) ≠ "2024")
    ∧ stripNonAlnum "a2024b" = "a2024b"
    ∧ 0 < ("a2024b" : String).length ∧ ("a2024b" : String).length < 12
    ∧ ("a2024b" : String) ∉ ([] : List String)
    ∧ ProcessDocx.extract_vocab [] ["a2024b"] [] = []
    ∧ ReadDocx.extract_vocab ["a2024b"] [] = [] := by decide

/-- The dict-based extractor only ever appends to the store it was given. -/
theorem extract_vocab_prefix (text : List String) :
    ∀ v : List String, ∃ s, ReadDocx.extract_vocab text v = v ++ s := by
  induction text with
  | nil => intro v; exact ⟨[], by simp [ReadDocx.extract_vocab]⟩
  | cons w rest ih =>
    intro v
    simp only [ReadDocx.extract_vocab]
    by_cases h : stripNonAlnum w ∉ v ∧ 0 < (stripNonAlnum w).length
        ∧ (stripNonAlnum w).length < 12 ∧ substrB "2024".data (stripNonAlnum w).data = false
    · rw [if_pos h]
      obtain ⟨s, hs⟩ := ih (v ++ [stripNonAlnum w])
      exact ⟨[stripNonAlnum w] ++ s, by rw [hs, List.append_assoc]⟩
    · rw [if_neg h]
      exact ih v

/-- Membership in the store survives running the dict-based extractor. -/
theorem mem_extract_vocab_of_mem {x : String} (text : List String) (v : List String)
    (hx : x ∈ v) : x ∈ ReadDocx.extract_vocab text v := by
  obtain ⟨s, hs⟩ := extract_vocab_prefix text v
  rw [hs]
  exact List.mem_append_left _ hx

/-- A token of the text whose stripped form passes the store-independent
conditions ends up in the store after one run of the dict-based extractor. -/
theorem mem_extract_vocab (w : String)
    (hc : 0 < (stripNonAlnum w).length ∧ (stripNonAlnum w).length < 12
        ∧ substrB "2024".data (stripNonAlnum w).data = false) :
    ∀ text : List String, w ∈ text →
      ∀ v : List String, stripNonAlnum w ∈ ReadDocx.extract_vocab text v := by
  intro text
  induction text with
  | nil => intro h; cases h
  | cons hd rest ih =>
    intro hmem v
    simp only [ReadDocx.extract_vocab]
    rcases List.mem_cons.mp hmem with heq | hmem2
    · subst heq
      apply mem_extract_vocab_of_mem
      by_cases hv : stripNonAlnum w ∈ v
      · rw [if_neg (fun hC => hC.1 hv)]
        exact hv
      · rw [if_pos ⟨hv, hc⟩]
        exact List.mem_append_right _ (List.mem_singleton_self _)
    · exact ih hmem2 _

/-- The dict-based extractor is a no-op when every token of the text is
either already in the store or fails the store-independent conditions. -/
theorem extract_vocab_noop :
    ∀ (text v : List String),
      (∀ w ∈ text, stripNonAlnum w ∈ v ∨
        ¬(0 < (stripNonAlnum w).length ∧ (stripNonAlnum w).length < 12
          ∧ substrB "2024".data (stripNonAlnum w).data = false)) →
      ReadDocx.extract_vocab text v = v := by
  intro text
  induction text with
  | nil => intro v _; rfl
  | cons hd rest ih =>
    intro v hall
    simp only [ReadDocx.extract_vocab]
    have hcond : ¬(stripNonAlnum hd ∉ v ∧ 0 < (stripNonAlnum hd).length
        ∧ (stripNonAlnum hd).length < 12
        ∧ substrB "2024".data (stripNonAlnum hd).data = false) := by
      rcases hall hd (List.mem_cons_self _ _) with h1 | h2
      · exact fun hC => hC.1 h1
      · exact fun hC => h2 hC.2
    rw [if_neg hcond]
    exact ih v (fun w hw => hall w (List.mem_cons_of_mem _ hw))

/-- Claim C5 (amended): running the dict-keyed extractor
(`extract_vocab` in `src/read_docx/data_processing.py`) twice over the
same text against the same store yields a store identical to running it
once. (The list-backed `ProcessDocx.extract_vocab` does not satisfy this —
see the counterexample — because its membership check consults only the
preloaded character set, which is not updated on insertion.) -/
theorem C5_extract_idempotent (text vocab : List String) :
    ReadDocx.extract_vocab text (ReadDocx.extract_vocab text vocab) =
      ReadDocx.extract_vocab text vocab := by
  apply extract_vocab_noop
  intro w hw
  by_cases hc : 0 < (stripNonAlnum w).length ∧ (stripNonAlnum w).length < 12
      ∧ substrB "2024".data (stripNonAlnum w).data = false
  · exact Or.inl (mem_extract_vocab w hc text hw vocab)
  · exact Or.inr hc

/-- Claim C5 counterexample: running `ProcessDocx.extract_vocab` twice over
the one-token text `["ab"]` against the (initially empty) store inserts
the entry twice — the exclusion set is not updated on insertion, so
re-extraction duplicates every newly inserted token. -/
theorem C5_counterexample :
    ProcessDocx.extract_vocab [] ["ab"] (ProcessDocx.extract_vocab [] ["ab"] []) ≠
      ProcessDocx.extract_vocab [] ["ab"] [] := by decide

/-- Claim C2 (code bug): for a response whose extracted translation span is
`"ab"` (no `"<li>"`), `return_traduction` yields `["a", "b"]` — one item
per character of the span, because `remove_html_tags` iterates the span
string character by character — not the single whole-span item `["ab"]`
that the claim (and `remove_html_tags`'s own `text (list)` docstring)
describe. -/
theorem C2_char_iteration :
    get_traduction "w" "Entrées pour wabEntrées commençant par" = some "ab"
    ∧ return_traduction "w" "Entrées pour wabEntrées commençant par" = some ["a", "b"]
    ∧ (some ["a", "b"] : Option (List String)) ≠ some ["ab"] := by decide

/-- Claim C4 (code bug): for a response body containing neither marker
pair, `get_traduction` yields `None`, and `return_traduction` then crashes
(`remove_html_tags(None)` raises `TypeError`, modelled as `none`) instead
of producing the single-element sequence `[""]` that the claim describes. -/
theorem C4_no_marker_crash :
    extract_between_markers "zzz" ("Entrées pour " ++ "w") "Entrées commençant par" = none
    ∧ extract_between_markers "zzz" "Traduction" "Editer (projet CFDICT)" = none
    ∧ get_traduction "w" "zzz" = none
    ∧ return_traduction "w" "zzz" = none
    ∧ (none : Option (List String)) ≠ some [""] := by decide

/-- Claim C7 counterexample: in this body the primary marker pair IS found
(with an empty span between the markers), yet the translation used is the
fallback span `" XY"`, not the primary span — `if not traduction` also
fires on a found-but-empty primary span. -/
theorem C7_counterexample :
    extract_between_markers
        "Entrées pour wEntrées commençant par Traduction XYEditer (projet CFDICT)"
        ("Entrées pour " ++ "w") "Entrées commençant par" = some ""
    ∧ get_traduction "w"
        "Entrées pour wEntrées commençant par Traduction XYEditer (projet CFDICT)" = some " XY"
    ∧ (some " XY" : Option String) ≠ some "" := by decide

/-- Claim C7 (amended): the fallback marker pair is consulted iff the
primary span is not found OR is found empty (Python falsiness); whenever
the primary span is found and non-empty, it is the translation span used. -/
theorem C7_fallback_iff (query raw : String) :
    (∀ s : String,
        extract_between_markers raw ("Entrées pour " ++ query) "Entrées commençant par"
          = some s →
        s ≠ "" → get_traduction query raw = some s)
    ∧ (pyFalsyOpt (extract_between_markers raw ("Entrées pour " ++ query)
          "Entrées commençant par") = true →
        get_traduction query raw =
          extract_between_markers raw "Traduction" "Editer (projet CFDICT)") := by
  constructor
  · intro s hs hne
    simp only [get_traduction, hs]
    simp [pyFalsyOpt, hne]
  · intro hf
    simp [get_traduction, hf]

/-- Claim C7 witness: a concrete body whose primary span is the non-empty
`"zz"`; the translation used is exactly that span. -/
theorem C7_witness :
    extract_between_markers "Entrées pour wzzEntrées commençant par"
        ("Entrées pour " ++ "w") "Entrées commençant par" = some "zz"
    ∧ ("zz" : String) ≠ ""
    ∧ get_traduction "w" "Entrées pour wzzEntrées commençant par" = some "zz" :=
  ⟨by decide, by decide,
    (C7_fallback_iff "w" "Entrées pour wzzEntrées commençant par").1 "zz"
      (by decide) (by decide)⟩

/-- Claim C8: for every response whose extracted translation span contains
`"<li>"`, `return_traduction` splits the span on `"</li>"`, drops the
trailing chunk, and strips tags from each remaining chunk. -/
theorem C8_li_split (query raw span : String)
    (h1 : get_traduction query raw = some span)
    (h2 : substrB "<li>".data span.data = true) :
    return_traduction query raw =
      some (((pySplit "</li>".data span.data).dropLast).map
        (fun chunk => (⟨removeTags chunk⟩ : String))) := by
  have hne : span ≠ "" := by
    intro hs
    subst hs
    exact absurd h2 (by decide)
  simp only [return_traduction, h1]
  rw [if_pos ⟨hne, h2⟩]

/-- Claim C8 witness: on a body whose span is `"<li>one</li><li>two</li>"`
the result is exactly the two-element sequence `["one", "two"]`. -/
theorem C8_witness :
    get_traduction "w" "Entrées pour w<li>one</li><li>two</li>Entrées commençant par"
      = some "<li>one</li><li>two</li>"
    ∧ substrB "<li>".data ("<li>one</li><li>two</li>" : String).data = true
    ∧ return_traduction "w" "Entrées pour w<li>one</li><li>two</li>Entrées commençant par"
      = some ["one", "two"] :=
  ⟨by decide, by decide,
    (C8_li_split "w" "Entrées pour w<li>one</li><li>two</li>Entrées commençant par"
      "<li>one</li><li>two</li>" (by decide) (by decide)).trans (by decide)⟩

/-- Claim C3: `parse_definition` on the constructed input splits exactly at
the label boundaries and numeric prefixes, yielding one "noun" group with
definition `"a tree."` and two examples, and one "verb" group with
definition `"to grow."` and no examples. -/
theorem C3_parse_definition_eval :
    parse_definition "noun 1 a tree. Example one. Example two. verb 2 to grow.".data =
      .parsed
        [("noun".data,
          [{ definition := "a tree.".data,
             examples := ["Example one.".data, "Example two.".data] }]),
         ("verb".data,
          [{ definition := "to grow.".data, examples := [] }])] := by decide

/-- Claim C10: `remove_cards_by_categories` always retains a card whose
category is unset (`None`) or the empty string, whatever the exclusion
keywords are — the `if card.category:` truthiness guard skips the keyword
test for such cards. -/
theorem C10_keep_uncategorized (cards : List Card) (keywords : List String) (c : Card)
    (hc : c ∈ cards) (hcat : c.category = none ∨ c.category = some "") :
    c ∈ remove_cards_by_categories cards keywords := by
  unfold remove_cards_by_categories
  apply List.mem_filter.mpr
  refine ⟨hc, ?_⟩
  rcases hcat with h | h <;> simp [keepCard, h]

/-- Fixture card with no category, for the C10 witness. -/
def uncategorizedCard : Card :=
  { character := "h", pronunciation := "p", traduction := none, category := none,
    score := none, difficulty := none, correct := none, incorrect := none, reviewed := none }

/-- Claim C10 witness: a concrete category-less card survives filtering even
against a keyword list containing the empty keyword (a substring of every
category). -/
theorem C10_witness :
    uncategorizedCard ∈ [uncategorizedCard]
    ∧ (uncategorizedCard.category = none ∨ uncategorizedCard.category = some "")
    ∧ uncategorizedCard ∈ remove_cards_by_categories [uncategorizedCard] ["cours1", ""] :=
  ⟨by decide, Or.inl rfl,
    C10_keep_uncategorized [uncategorizedCard] ["cours1", ""] uncategorizedCard
      (by decide) (Or.inl rfl)⟩

/-- An entry carrying no placeholder (translation not `[""]`, pronunciation
non-empty) triggers no lookup and passes through the resolve body
unchanged. -/
theorem resolveEntry_frame (chineIn google : String → Except Fault (List String))
    (pinyinF : String → Except Fault String) (v : VocabEntry)
    (h1 : v.traduction ≠ [""]) (h2 : v.pronunciation ≠ "") :
    resolveEntry chineIn google pinyinF v = .ok v := by
  simp [resolveEntry, h1, h2]

/-- Claim C9: the resolve step leaves unchanged every entry whose
translation is not the placeholder `[""]` and whose pronunciation is
non-empty — entrywise, over both a completed run and the saved state of a
failed run; only entries still carrying a placeholder can be modified. -/
theorem C9_resolve_frame (chineIn google : String → Except Fault (List String))
    (pinyinF : String → Except Fault String) :
    ∀ vs : List VocabEntry,
      (∀ out, resolveAll chineIn google pinyinF vs = .ok out →
        List.Forall₂ (fun a b : VocabEntry =>
          a.traduction ≠ [""] → a.pronunciation ≠ "" → b = a) vs out)
      ∧ (∀ e saved, resolveAll chineIn google pinyinF vs = .error (e, saved) →
        List.Forall₂ (fun a b : VocabEntry =>
          a.traduction ≠ [""] → a.pronunciation ≠ "" → b = a) vs saved) := by
  intro vs
  induction vs with
  | nil =>
    constructor
    · intro out hout
      simp only [resolveAll] at hout
      injection hout with h
      subst h
      exact List.Forall₂.nil
    · intro e saved h
      simp [resolveAll] at h
  | cons v vs ih =>
    have hsame : ∀ l : List VocabEntry,
        List.Forall₂ (fun a b : VocabEntry =>
          a.traduction ≠ [""] → a.pronunciation ≠ "" → b = a) l l :=
      fun l => List.forall₂_same.mpr (fun a _ _ _ => rfl)
    constructor
    · intro out hout
      simp only [resolveAll] at hout
      cases hre : resolveEntry chineIn google pinyinF v with
      | error p =>
        obtain ⟨pe, pv⟩ := p
        rw [hre] at hout
        simp at hout
      | ok v1 =>
        rw [hre] at hout
        cases hra : resolveAll chineIn google pinyinF vs with
        | error q =>
          obtain ⟨qe, rest⟩ := q
          rw [hra] at hout
          simp at hout
        | ok rest =>
          rw [hra] at hout
          injection hout with h
          subst h
          refine List.Forall₂.cons ?_ ((ih.1) rest hra)
          intro h1 h2
          have hfr := resolveEntry_frame chineIn google pinyinF v h1 h2
          rw [hre] at hfr
          injection hfr with h
    · intro e saved h
      simp only [resolveAll] at h
      cases hre : resolveEntry chineIn google pinyinF v with
      | error p =>
        obtain ⟨pe, pv⟩ := p
        rw [hre] at h
        simp only [Except.error.injEq, Prod.mk.injEq] at h
        obtain ⟨he, hs⟩ := h
        subst hs
        refine List.Forall₂.cons ?_ (hsame vs)
        intro h1 h2
        have hfr := resolveEntry_frame chineIn google pinyinF v h1 h2
        rw [hre] at hfr
        exact absurd hfr (by simp)
      | ok v1 =>
        rw [hre] at h
        cases hra : resolveAll chineIn google pinyinF vs with
        | ok rest =>
          rw [hra] at h
          simp at h
        | error q =>
          obtain ⟨qe, rest⟩ := q
          rw [hra] at h
          simp only [Except.error.injEq, Prod.mk.injEq] at h
          obtain ⟨he, hs⟩ := h
          subst he
          subst hs
          refine List.Forall₂.cons ?_ ((ih.2) qe rest hra)
          intro h1 h2
          have hfr := resolveEntry_frame chineIn google pinyinF v h1 h2
          rw [hre] at hfr
          injection hfr with h

/-- Anatomy of the state carried out of a failed resolve loop: it has the
same length as the input store; entries before the failure index are the
successful per-entry resolutions, the entry at the failure index is the
state the failing entry had reached, and every entry after it is
untouched. -/
theorem resolveAll_error_spec (chineIn google : String → Except Fault (List String))
    (pinyinF : String → Except Fault String) :
    ∀ (vs saved : List VocabEntry) (e : Fault),
      resolveAll chineIn google pinyinF vs = .error (e, saved) →
      saved.length = vs.length ∧
      ∃ k, k < vs.length
        ∧ (∀ i, i < k → ∃ a b, vs[i]? = some a ∧ saved[i]? = some b
            ∧ resolveEntry chineIn google pinyinF a = .ok b)
        ∧ (∃ a b, vs[k]? = some a ∧ saved[k]? = some b
            ∧ resolveEntry chineIn google pinyinF a = .error (e, b))
        ∧ (∀ i, k < i → saved[i]? = vs[i]?) := by
  intro vs
  induction vs with
  | nil => intro saved e h; simp [resolveAll] at h
  | cons v vs ih =>
    intro saved e h
    simp only [resolveAll] at h
    cases hre : resolveEntry chineIn google pinyinF v with
    | error p =>
      obtain ⟨pe, pv⟩ := p
      rw [hre] at h
      simp only [Except.error.injEq, Prod.mk.injEq] at h
      obtain ⟨he, hs⟩ := h
      subst he
      subst hs
      refine ⟨by simp, 0, by simp, ?_, ?_, ?_⟩
      · intro i hi
        exact absurd hi (Nat.not_lt_zero i)
      · exact ⟨v, pv, by simp, by simp, hre⟩
      · intro i hi
        cases i with
        | zero => exact absurd hi (Nat.lt_irrefl 0)
        | succ j => simp
    | ok v1 =>
      rw [hre] at h
      cases hra : resolveAll chineIn google pinyinF vs with
      | ok rest =>
        rw [hra] at h
        simp at h
      | error q =>
        obtain ⟨qe, rest⟩ := q
        rw [hra] at h
        simp only [Except.error.injEq, Prod.mk.injEq] at h
        obtain ⟨he, hs⟩ := h
        subst he
        subst hs
        obtain ⟨hlen, k, hk, hpre, hat, hsuf⟩ := ih rest qe hra
        refine ⟨by simp [hlen], k + 1, by simp only [List.length_cons]; omega, ?_, ?_, ?_⟩
        · intro i hi
          cases i with
          | zero => exact ⟨v, v1, by simp, by simp, hre⟩
          | succ j =>
            obtain ⟨a, b, ha, hb, hab⟩ := hpre j (by omega)
            exact ⟨a, b, by simpa using ha, by simpa using hb, hab⟩
        · obtain ⟨a, b, ha, hb, hab⟩ := hat
          exact ⟨a, b, by simpa using ha, by simpa using hb, hab⟩
        · intro i hi
          cases i with
          | zero => exact absurd hi (Nat.not_lt_zero _)
          | succ j =>
            simpa using hsuf j (by omega)

/-- Claim C6: whenever the resolve loop fails, the orchestrator writes the
store's current state to the checkpoint location and re-raises a distinct
error whose message contains "Progress has been saved." and whose cause is
the original fault; the written state holds all entries — those before the
failure resolved, the failing one as far as it got, those after untouched
(still at whatever values, in particular placeholders, they had). -/
theorem C6_checkpoint_on_failure (chineIn google : String → Except Fault (List String))
    (pinyinF : String → Except Fault String) (vocab saved : List VocabEntry) (e : Fault)
    (h : resolveAll chineIn google pinyinF vocab = .error (e, saved)) :
    mainResolve chineIn google pinyinF vocab =
      .failed checkpointPath saved (wrapFault e)
    ∧ (wrapFault e).cause = e
    ∧ substrB "Progress has been saved.".data ((wrapFault e).msg).data = true
    ∧ saved.length = vocab.length
    ∧ ∃ k, k < vocab.length
        ∧ (∀ i, i < k → ∃ a b, vocab[i]? = some a ∧ saved[i]? = some b
            ∧ resolveEntry chineIn google pinyinF a = .ok b)
        ∧ (∃ a b, vocab[k]? = some a ∧ saved[k]? = some b
            ∧ resolveEntry chineIn google pinyinF a = .error (e, b))
        ∧ (∀ i, k < i → saved[i]? = vocab[i]?) := by
  obtain ⟨hlen, hk⟩ := resolveAll_error_spec chineIn google pinyinF vocab saved e h
  refine ⟨by simp [mainResolve, h], ?_, ?_, hlen, hk⟩
  · by_cases hc : e.isConn <;> simp [wrapFault, hc]
  · by_cases hc : e.isConn
    · have hm : (wrapFault e).msg = "Failed to fetch data. Progress has been saved." := by
        rw [wrapFault, if_pos hc]
      rw [hm]
      decide
    · have hm : (wrapFault e).msg = "An error occurred. Progress has been saved." := by
        rw [wrapFault, if_neg hc]
      rw [hm]
      decide

/-- Lookup fixture: the dictionary lookup fails on the word `"c"` with a
connection fault and succeeds on every other word. -/
def wCh : String → Except Fault (List String) :=
  fun w => if w = "c" then .error { isConn := true, text := "net down" } else .ok ["t" ++ w]

/-- Lookup fixture: the fallback translator always succeeds. -/
def wGo : String → Except Fault (List String) :=
  fun w => .ok ["g" ++ w]

/-- Lookup fixture: pinyin resolution always succeeds. -/
def wPy : String → Except Fault String :=
  fun w => .ok ("p" ++ w)

/-- Five-entry store: entries a, c, d, e at placeholders, entry b resolved. -/
def wVocab : List VocabEntry :=
  [{ character := "a", traduction := [""], pronunciation := "" },
   { character := "b", traduction := ["done"], pronunciation := "pb" },
   { character := "c", traduction := [""], pronunciation := "" },
   { character := "d", traduction := [""], pronunciation := "" },
   { character := "e", traduction := [""], pronunciation := "" }]

/-- The state the failed run over `wVocab` saves: two entries resolved,
three still at placeholders. -/
def wSaved : List VocabEntry :=
  [{ character := "a", traduction := ["ta"], pronunciation := "pa" },
   { character := "b", traduction := ["done"], pronunciation := "pb" },
   { character := "c", traduction := [""], pronunciation := "" },
   { character := "d", traduction := [""], pronunciation := "" },
   { character := "e", traduction := [""], pronunciation := "" }]

/-- The fault the `wCh` fixture raises on `"c"`. -/
def wFault : Fault := { isConn := true, text := "net down" }

/-- Claim C6 witness: resolving the five-entry store fails at the third
entry and the orchestrator saves the two-updated/three-placeholder state
to the checkpoint location with the wrapped "Progress has been saved."
error. -/
theorem C6_witness :
    resolveAll wCh wGo wPy wVocab = .error (wFault, wSaved)
    ∧ mainResolve wCh wGo wPy wVocab = .failed checkpointPath wSaved (wrapFault wFault) :=
  ⟨rfl, (C6_checkpoint_on_failure wCh wGo wPy wVocab wSaved wFault rfl).1⟩

/-- Two-entry store for the C9 witness: one fully resolved entry, one at
placeholders. -/
def wVocab9 : List VocabEntry :=
  [{ character := "b", traduction := ["done"], pronunciation := "pb" },
   { character := "d", traduction := [""], pronunciation := "" }]

/-- Claim C9 witness: on a concrete successful run, entries that carried
no placeholder come out unchanged. -/
theorem C9_witness :
    resolveAll wCh wGo wPy wVocab9 =
      .ok [{ character := "b", traduction := ["done"], pronunciation := "pb" },
           { character := "d", traduction := ["td"], pronunciation := "pd" }]
    ∧ List.Forall₂ (fun a b : VocabEntry =>
        a.traduction ≠ [""] → a.pronunciation ≠ "" → b = a) wVocab9
      [{ character := "b", traduction := ["done"], pronunciation := "pb" },
       { character := "d", traduction := ["td"], pronunciation := "pd" }] :=
  ⟨rfl, (C9_resolve_frame wCh wGo wPy wVocab9).1 _ rfl⟩
